import Mathlib

set_option maxRecDepth 10000

/-!
Verification development for the summarizer-api repository.

The definitions below are a shallow embedding of the Python sources under
`src/app/`: strings are modelled as `List Char` where character-indexed
slicing matters, machine floats holding the progress checkpoints are
modelled as `Rat` (the constants 0.0, 0.2, 0.4, 0.9, 1.0 are exact in
both representations), the relational store is a list of rows, and the
Redis cache is an association list with explicit TTLs.  Effectful code is
modelled by explicit state passing; the background pipeline is modelled
as the trace of store/cache writes it performs.
-/

namespace Summarizer

/-- Document processing status enum, from `DocumentStatus` in `src/app/schemas.py`. -/
inductive DocumentStatus where
  | PENDING
  | FETCHING
  | PARSING
  | SUMMARIZING
  | SUCCESS
  | FAILED
deriving DecidableEq, Repr

/-- Durable document row, from the `Document` model in `src/app/models.py`.
The summary is kept as a character list so that the character-level
trimming bound can be stated directly; timestamps are abstract numbers. -/
structure Document where
  id : String
  name : String
  url : String
  status : DocumentStatus
  summary : Option (List Char)
  data_progress : Rat
  last_error : Option String
  created_at : Nat
  processing_time : Option Rat
  model_used : Option String
deriving DecidableEq, Repr

/-! Summarization client trimming, from
`OllamaClient._trim_to_sentence_boundary` in `src/app/ollama_client.py`. -/

/-- Index of the last occurrence of `c` in `l`, if any
(helper modelling Python `str.rfind` before its `-1` encoding). -/
def lastIdxOf? (l : List Char) (c : Char) : Option Nat :=
  match l with
  | [] => none
  | x :: xs =>
    match lastIdxOf? xs c with
    | some i => some (i + 1)
    | none => if x = c then some 0 else none

/-- Python `str.rfind`: highest index at which `c` occurs, or `-1`. -/
def pyRfind (l : List Char) (c : Char) : Int :=
  match lastIdxOf? l c with
  | some i => (i : Int)
  | none => -1

/-- Sentence-ending characters searched by the trimmer, from
`sentence_endings = [".", "!", "?"]` in `src/app/ollama_client.py`. -/
def sentence_endings : List Char := ['.', '!', '?']

/-- Result of the `for ending in sentence_endings` loop of
`_trim_to_sentence_boundary`: the largest `rfind` result over the three
sentence-ending characters, starting from `-1`. -/
def last_sentence_end_of (truncated : List Char) : Int :=
  sentence_endings.foldl
    (fun acc ending =>
      let pos := pyRfind truncated ending
      if acc < pos then pos else acc)
    (-1)

/-- Embedding of `OllamaClient._trim_to_sentence_boundary(text, max_length)`:
return `text` unchanged when short enough, otherwise cut the first
`max_length` characters back to the last sentence ending found at a
positive index, falling back to the last space at a positive index,
falling back to the hard cut. -/
def trim_to_sentence_boundary (text : List Char) (max_length : Nat) : List Char :=
  if text.length ≤ max_length then text
  else
    let truncated := text.take max_length
    let last_sentence_end : Int := last_sentence_end_of truncated
    if 0 < last_sentence_end then
      truncated.take (last_sentence_end.toNat + 1)
    else
      let last_space := pyRfind truncated ' '
      if 0 < last_space then truncated.take last_space.toNat
      else truncated

/-! Basic facts about `lastIdxOf?` and `pyRfind`. -/

theorem lastIdxOf?_eq_none_iff (l : List Char) (c : Char) :
    lastIdxOf? l c = none ↔ c ∉ l := by
  induction l with
  | nil => simp [lastIdxOf?]
  | cons x xs ih =>
    constructor
    · intro h hmem
      simp only [lastIdxOf?] at h
      cases h' : lastIdxOf? xs c with
      | some i => rw [h'] at h; simp at h
      | none =>
        rw [h'] at h
        rcases List.mem_cons.mp hmem with h1 | h1
        · subst h1; simp at h
        · exact (ih.mp h') h1
    · intro hmem
      simp only [lastIdxOf?]
      have hxs : c ∉ xs := fun hc => hmem (List.mem_cons_of_mem _ hc)
      rw [ih.mpr hxs]
      have hx : ¬ x = c := fun hc => hmem (by rw [hc]; exact List.mem_cons_self _ _)
      simp [hx]

theorem mem_of_getElem?_char {l : List Char} {k : Nat} {c : Char}
    (h : l[k]? = some c) : c ∈ l := by
  obtain ⟨hk, he⟩ := List.getElem?_eq_some.mp h
  exact he ▸ List.getElem_mem hk

theorem lastIdxOf?_getElem (l : List Char) (c : Char) (i : Nat)
    (h : lastIdxOf? l c = some i) : l[i]? = some c := by
  induction l generalizing i with
  | nil => simp [lastIdxOf?] at h
  | cons x xs ih =>
    simp only [lastIdxOf?] at h
    cases h' : lastIdxOf? xs c with
    | some j =>
      rw [h'] at h
      obtain rfl : j + 1 = i := by simpa using h
      simpa using ih j h'
    | none =>
      rw [h'] at h
      by_cases hx : x = c
      · simp [hx] at h
        subst hx
        simp [← h]
      · simp [hx] at h

theorem lastIdxOf?_greatest (l : List Char) (c : Char) (i : Nat)
    (h : lastIdxOf? l c = some i) :
    ∀ k, l[k]? = some c → k ≤ i := by
  induction l generalizing i with
  | nil => intro k hk; simp at hk
  | cons x xs ih =>
    intro k hk
    simp only [lastIdxOf?] at h
    cases h' : lastIdxOf? xs c with
    | some j =>
      rw [h'] at h
      obtain rfl : j + 1 = i := by simpa using h
      cases k with
      | zero => exact Nat.zero_le _
      | succ k' =>
        simp only [List.getElem?_cons_succ] at hk
        exact Nat.succ_le_succ (ih j h' k' hk)
    | none =>
      rw [h'] at h
      by_cases hx : x = c
      · simp [hx] at h
        cases k with
        | zero => omega
        | succ k' =>
          simp only [List.getElem?_cons_succ] at hk
          have : c ∉ xs := (lastIdxOf?_eq_none_iff xs c).mp h'
          exact absurd (mem_of_getElem?_char hk) this
      · simp [hx] at h

theorem lastIdxOf?_isSome_of_mem (l : List Char) (c : Char) (h : c ∈ l) :
    ∃ i, lastIdxOf? l c = some i := by
  cases h' : lastIdxOf? l c with
  | some i => exact ⟨i, rfl⟩
  | none => exact absurd h ((lastIdxOf?_eq_none_iff l c).mp h')

theorem lastIdxOf?_lt_length (l : List Char) (c : Char) (i : Nat)
    (h : lastIdxOf? l c = some i) : i < l.length := by
  have := lastIdxOf?_getElem l c i h
  exact (List.getElem?_eq_some.mp this).1

theorem pyRfind_lt_length (l : List Char) (c : Char) :
    pyRfind l c < (l.length : Int) := by
  cases h : lastIdxOf? l c with
  | some i =>
    have := lastIdxOf?_lt_length l c i h
    simp only [pyRfind, h]
    exact_mod_cast this
  | none =>
    simp only [pyRfind, h]
    omega

theorem le_pyRfind_of_getElem (l : List Char) (c : Char) (k : Nat)
    (h : l[k]? = some c) : (k : Int) ≤ pyRfind l c := by
  cases h' : lastIdxOf? l c with
  | some i =>
    have := lastIdxOf?_greatest l c i h' k h
    simp only [pyRfind, h']
    exact_mod_cast this
  | none =>
    exact absurd (mem_of_getElem?_char h) ((lastIdxOf?_eq_none_iff l c).mp h')

theorem pyRfind_eq_neg_one (l : List Char) (c : Char) (h : c ∉ l) :
    pyRfind l c = -1 := by
  unfold pyRfind
  rw [(lastIdxOf?_eq_none_iff l c).mpr h]

theorem pyRfind_getElem (l : List Char) (c : Char)
    (h : 0 ≤ pyRfind l c) : l[(pyRfind l c).toNat]? = some c := by
  cases h' : lastIdxOf? l c with
  | some i =>
    simp only [pyRfind, h', Int.toNat_ofNat]
    exact lastIdxOf?_getElem l c i h'
  | none =>
    simp only [pyRfind, h'] at h
    omega

theorem trim_leading_fragment (text : List Char) (max_length : Nat) :
    trim_to_sentence_boundary text max_length <+: text := by
  have h2 : text.take max_length <+: text :=
    ⟨text.drop max_length, List.take_append_drop max_length text⟩
  have htake : ∀ n : Nat, (text.take max_length).take n <+: text := fun n =>
    List.IsPrefix.trans ⟨(text.take max_length).drop n, List.take_append_drop n _⟩ h2
  unfold trim_to_sentence_boundary
  by_cases hshort : text.length ≤ max_length
  · rw [if_pos hshort]
  · rw [if_neg hshort]
    dsimp only
    split
    · exact htake _
    · split
      · exact htake _
      · exact h2

theorem trim_id_of_short (text : List Char) (max_length : Nat)
    (h : text.length ≤ max_length) :
    trim_to_sentence_boundary text max_length = text := by
  unfold trim_to_sentence_boundary
  rw [if_pos h]

theorem trim_length_le (text : List Char) (max_length : Nat)
    (h : max_length < text.length) :
    (trim_to_sentence_boundary text max_length).length ≤ max_length := by
  have hlen : ∀ n : Nat, ((text.take max_length).take n).length ≤ max_length := by
    intro n
    simp only [List.length_take]
    omega
  unfold trim_to_sentence_boundary
  rw [if_neg (by omega)]
  dsimp only
  split
  · exact hlen _
  · split
    · exact hlen _
    · simp only [List.length_take]; omega

/-- Claim C10: the trimmer only ever returns a leading fragment of its
input: it is the identity on inputs of at most `max_length` characters
and otherwise returns a prefix of length at most `max_length`. -/
theorem trim_is_verbatim_prefix (text : List Char) (max_length : Nat)
    (hpos : 0 < max_length) :
    trim_to_sentence_boundary text max_length <+: text
    ∧ (text.length ≤ max_length → trim_to_sentence_boundary text max_length = text)
    ∧ (max_length < text.length →
        (trim_to_sentence_boundary text max_length).length ≤ max_length) :=
  ⟨trim_leading_fragment text max_length,
   trim_id_of_short text max_length,
   trim_length_le text max_length⟩

/-- Witness for C10 at a concrete input: trimming `"ab. cd"` with bound 4
yields the prefix `"ab."`. -/
theorem trim_is_verbatim_prefix_witness :
    trim_to_sentence_boundary ['a', 'b', '.', ' ', 'c', 'd'] 4 <+:
      ['a', 'b', '.', ' ', 'c', 'd'] ∧
    (trim_to_sentence_boundary ['a', 'b', '.', ' ', 'c', 'd'] 4).length ≤ 4 := by
  have h := trim_is_verbatim_prefix ['a', 'b', '.', ' ', 'c', 'd'] 4 (by decide)
  exact ⟨h.1, h.2.2 (by decide)⟩

/-! Characterization of the sentence-ending search loop. -/

/-- Position `i` of `t` holds a sentence-ending character. -/
def sentEndAt (t : List Char) (i : Nat) : Prop :=
  ∃ c, t[i]? = some c ∧ c ∈ sentence_endings

/-- Position `i` of `t` holds a space. -/
def spaceAt (t : List Char) (i : Nat) : Prop := t[i]? = some ' '

theorem if_lt_eq_max (a b : Int) : (if a < b then b else a) = max a b := by
  rcases le_or_lt b a with h | h
  · rw [if_neg (not_lt.mpr h), max_eq_left h]
  · rw [if_pos h, max_eq_right (le_of_lt h)]

theorem last_sentence_end_of_eq_max (t : List Char) :
    last_sentence_end_of t =
      max (max (max (-1) (pyRfind t '.')) (pyRfind t '!')) (pyRfind t '?') := by
  simp only [last_sentence_end_of, sentence_endings, List.foldl, if_lt_eq_max]

theorem le_last_sentence_end_of_getElem (t : List Char) (k : Nat) (c : Char)
    (hk : t[k]? = some c) (hc : c ∈ sentence_endings) :
    (k : Int) ≤ last_sentence_end_of t := by
  rw [last_sentence_end_of_eq_max]
  have h := le_pyRfind_of_getElem t c k hk
  simp only [sentence_endings, List.mem_cons, List.not_mem_nil, or_false] at hc
  rcases hc with rfl | rfl | rfl
  · omega
  · omega
  · omega

theorem pyRfind_le_of_no_later (t : List Char) (c : Char) (i : Int)
    (hi : -1 ≤ i)
    (hgr : ∀ k : Nat, t[k]? = some c → (k : Int) ≤ i) : pyRfind t c ≤ i := by
  rcases le_or_lt 0 (pyRfind t c) with h | h
  · have hget := pyRfind_getElem t c h
    have := hgr (pyRfind t c).toNat hget
    omega
  · omega

theorem last_sentence_end_of_eq_greatest (t : List Char) (i : Nat)
    (hi : sentEndAt t i) (hgr : ∀ k, sentEndAt t k → k ≤ i) :
    last_sentence_end_of t = (i : Int) := by
  obtain ⟨c, hk, hc⟩ := hi
  have hle : (i : Int) ≤ last_sentence_end_of t :=
    le_last_sentence_end_of_getElem t i c hk hc
  have hbound : ∀ d, d ∈ sentence_endings → pyRfind t d ≤ (i : Int) := by
    intro d hd
    refine pyRfind_le_of_no_later t d i (by omega) ?_
    intro k hkd
    exact_mod_cast hgr k ⟨d, hkd, hd⟩
  rw [last_sentence_end_of_eq_max] at hle ⊢
  have h1 := hbound '.' (by simp [sentence_endings])
  have h2 := hbound '!' (by simp [sentence_endings])
  have h3 := hbound '?' (by simp [sentence_endings])
  omega

theorem last_sentence_end_of_nonpos (t : List Char)
    (h : ∀ k, 0 < k → ¬ sentEndAt t k) : last_sentence_end_of t ≤ 0 := by
  have hbound : ∀ d, d ∈ sentence_endings → pyRfind t d ≤ (0 : Int) := by
    intro d hd
    refine pyRfind_le_of_no_later t d 0 (by omega) ?_
    intro k hkd
    by_contra hk
    exact h k (by omega) ⟨d, hkd, hd⟩
  rw [last_sentence_end_of_eq_max]
  have h1 := hbound '.' (by simp [sentence_endings])
  have h2 := hbound '!' (by simp [sentence_endings])
  have h3 := hbound '?' (by simp [sentence_endings])
  omega

theorem pyRfind_eq_of_greatest (t : List Char) (c : Char) (j : Nat)
    (hj : t[j]? = some c) (hgr : ∀ k, t[k]? = some c → k ≤ j) :
    pyRfind t c = (j : Int) := by
  have h1 := le_pyRfind_of_getElem t c j hj
  have h2 := pyRfind_le_of_no_later t c j (by omega)
    (fun k hk => by exact_mod_cast hgr k hk)
  omega

theorem pyRfind_nonpos_of_no_later (t : List Char) (c : Char)
    (h : ∀ k, 0 < k → t[k]? ≠ some c) : pyRfind t c ≤ 0 := by
  refine pyRfind_le_of_no_later t c 0 (by omega) ?_
  intro k hk
  by_contra hlt
  exact h k (by omega) hk

/-- Claim C8, amended: the trimmer is the identity on inputs of at most
1500 characters; on longer inputs it cuts back to the last sentence
ending within the first 1500 characters provided that ending sits at a
position greater than 0, else to the last space at a position greater
than 0, else keeps the first 1500 characters verbatim (a boundary at
position exactly 0 is ignored by the `> 0` guards in the source). -/
theorem trim_sentence_boundary_amended (s : List Char) :
    (s.length ≤ 1500 → trim_to_sentence_boundary s 1500 = s)
    ∧ (1500 < s.length →
        (∀ i, 0 < i → sentEndAt (s.take 1500) i →
            (∀ k, sentEndAt (s.take 1500) k → k ≤ i) →
            trim_to_sentence_boundary s 1500 = (s.take 1500).take (i + 1)
            ∧ (trim_to_sentence_boundary s 1500).length ≤ 1500)
        ∧ ((∀ k, 0 < k → ¬ sentEndAt (s.take 1500) k) →
            (∀ j, 0 < j → spaceAt (s.take 1500) j →
                (∀ k, spaceAt (s.take 1500) k → k ≤ j) →
                trim_to_sentence_boundary s 1500 = (s.take 1500).take j
                ∧ (trim_to_sentence_boundary s 1500).length ≤ 1500)
            ∧ ((∀ k, 0 < k → ¬ spaceAt (s.take 1500) k) →
                trim_to_sentence_boundary s 1500 = s.take 1500))) := by
  constructor
  · intro h
    unfold trim_to_sentence_boundary
    rw [if_pos h]
  · intro hlong
    have hnot : ¬ s.length ≤ 1500 := by omega
    constructor
    · intro i hi0 hi hgr
      have hlse : last_sentence_end_of (s.take 1500) = (i : Int) :=
        last_sentence_end_of_eq_greatest _ i hi hgr
      have htrim : trim_to_sentence_boundary s 1500 = (s.take 1500).take (i + 1) := by
        unfold trim_to_sentence_boundary
        rw [if_neg hnot]
        dsimp only
        rw [hlse, if_pos (by exact_mod_cast hi0)]
        rw [show ((i : Int)).toNat + 1 = i + 1 by omega]
      refine ⟨htrim, ?_⟩
      rw [htrim]
      simp only [List.length_take]
      obtain ⟨c, hk, _⟩ := hi
      have hilt : i < (s.take 1500).length := (List.getElem?_eq_some.mp hk).1
      simp only [List.length_take] at hilt
      omega
    · intro hnosent
      have hlse : last_sentence_end_of (s.take 1500) ≤ 0 :=
        last_sentence_end_of_nonpos _ hnosent
      constructor
      · intro j hj0 hj hgr
        have hsp : pyRfind (s.take 1500) ' ' = (j : Int) :=
          pyRfind_eq_of_greatest _ ' ' j hj (fun k hk => hgr k hk)
        have htrim : trim_to_sentence_boundary s 1500 = (s.take 1500).take j := by
          unfold trim_to_sentence_boundary
          rw [if_neg hnot]
          dsimp only
          rw [if_neg (by omega), hsp, if_pos (by exact_mod_cast hj0)]
          rw [show ((j : Int)).toNat = j by omega]
        refine ⟨htrim, ?_⟩
        rw [htrim]
        simp only [List.length_take]
        omega
      · intro hnospace
        have hsp : pyRfind (s.take 1500) ' ' ≤ 0 :=
          pyRfind_nonpos_of_no_later _ ' ' (fun k hk hkc => hnospace k hk hkc)
        unfold trim_to_sentence_boundary
        rw [if_neg hnot]
        dsimp only
        rw [if_neg (by omega), if_neg (by omega)]

/-- Concrete input refuting claim C8 as stated: a string longer than 1500
characters whose only sentence-ending character within the cutoff sits at
position 0. -/
def c8_input : List Char := '.' :: List.replicate 1500 'a'

theorem getLast?_cons_replicate (x a : Char) (n : Nat) :
    (x :: List.replicate (n + 1) a).getLast? = some a := by
  induction n generalizing x with
  | zero => rfl
  | succ m ih =>
    rw [List.replicate_succ, List.getLast?_cons_cons]
    exact ih a

/-- Claim C8 counterexample: `c8_input` is longer than 1500 characters and
its first 1500 characters contain a sentence-ending character (the dot at
position 0), yet the trimmed result does not end at that character — it
is the full 1500-character hard cut ending in `a`. -/
theorem trim_sentence_boundary_counterexample :
    1500 < c8_input.length
    ∧ '.' ∈ c8_input.take 1500
    ∧ (trim_to_sentence_boundary c8_input 1500).getLast? = some 'a'
    ∧ 'a' ∉ sentence_endings
    ∧ (trim_to_sentence_boundary c8_input 1500).length = 1500 := by
  have htake : c8_input.take 1500 = '.' :: List.replicate 1499 'a' := by
    show List.take (1499 + 1) ('.' :: List.replicate 1500 'a') = _
    rw [List.take_succ_cons, List.take_replicate]
    norm_num
  have hdotfind : pyRfind ('.' :: List.replicate 1499 'a') '.' = 0 := by
    have h0 : pyRfind ('.' :: List.replicate 1499 'a') '.' = ((0 : Nat) : Int) := by
      refine pyRfind_eq_of_greatest _ '.' 0 rfl ?_
      intro k hk
      cases k with
      | zero => exact Nat.le_refl 0
      | succ k' =>
        rw [List.getElem?_cons_succ] at hk
        have hmem := mem_of_getElem?_char hk
        rw [List.mem_replicate] at hmem
        exact absurd hmem.2 (by decide)
    exact_mod_cast h0
  have hmiss : ∀ c : Char, c ≠ '.' → c ≠ 'a' →
      pyRfind ('.' :: List.replicate 1499 'a') c = -1 := by
    intro c h1 h2
    refine pyRfind_eq_neg_one _ _ ?_
    intro hmem
    rcases List.mem_cons.mp hmem with h | h
    · exact h1 h
    · exact h2 ((List.mem_replicate.mp h).2)
  have hlse : last_sentence_end_of ('.' :: List.replicate 1499 'a') = 0 := by
    rw [last_sentence_end_of_eq_max, hdotfind,
      hmiss '!' (by decide) (by decide), hmiss '?' (by decide) (by decide)]
    decide
  have hlen : ¬ c8_input.length ≤ 1500 := by
    simp [c8_input]
  have htrim : trim_to_sentence_boundary c8_input 1500 =
      '.' :: List.replicate 1499 'a' := by
    unfold trim_to_sentence_boundary
    rw [if_neg hlen]
    dsimp only
    rw [htake, hlse, if_neg (by omega),
      hmiss ' ' (by decide) (by decide), if_neg (by omega)]
  refine ⟨by simp [c8_input], ?_, ?_, by decide, ?_⟩
  · rw [htake]; exact List.mem_cons_self _ _
  · rw [htrim]
    show ('.' :: List.replicate (1498 + 1) 'a').getLast? = some 'a'
    exact getLast?_cons_replicate '.' 'a' 1498
  · rw [htrim]
    simp

/-- Concrete 2000-character input from the spec scenario: the last
sentence boundary sits at offset 1400. -/
def c8_spec_input : List Char :=
  List.replicate 1400 'a' ++ '.' :: List.replicate 599 'b'

/-- Witness for the amended claim C8: on the spec scenario input the
trimmer cuts exactly at the offset-1400 sentence boundary. -/
theorem trim_sentence_boundary_amended_witness :
    trim_to_sentence_boundary c8_spec_input 1500 = List.replicate 1400 'a' ++ ['.']
    ∧ (trim_to_sentence_boundary c8_spec_input 1500).length ≤ 1500 := by
  have htake : c8_spec_input.take 1500 =
      List.replicate 1400 'a' ++ '.' :: List.replicate 99 'b' := by
    show (List.replicate 1400 'a' ++ '.' :: List.replicate 599 'b').take 1500 = _
    rw [List.take_append_eq_append_take, List.take_replicate, List.length_replicate]
    norm_num
  have hlong : 1500 < c8_spec_input.length := by
    simp [c8_spec_input]
  have hsent : sentEndAt (c8_spec_input.take 1500) 1400 := by
    rw [htake]
    refine ⟨'.', ?_, by decide⟩
    rw [List.getElem?_append_right (by simp)]
    simp
  have hgr : ∀ k, sentEndAt (c8_spec_input.take 1500) k → k ≤ 1400 := by
    intro k hks
    rcases hks with ⟨c, hk, hc⟩
    by_contra hgt
    push_neg at hgt
    rw [htake] at hk
    rw [List.getElem?_append_right (by simp; omega)] at hk
    rw [show k - (List.replicate 1400 'a').length = (k - 1401) + 1 by simp; omega,
      List.getElem?_cons_succ] at hk
    have hmem := mem_of_getElem?_char hk
    rw [List.mem_replicate] at hmem
    rw [hmem.2] at hc
    exact absurd hc (by decide)
  have hres := ((trim_sentence_boundary_amended c8_spec_input).2 hlong).1
    1400 (by norm_num) hsent hgr
  have hcut : (c8_spec_input.take 1500).take 1401 =
      List.replicate 1400 'a' ++ ['.'] := by
    rw [htake, List.take_append_eq_append_take, List.take_replicate,
      List.length_replicate]
    norm_num
  exact ⟨hcut ▸ hres.1, hres.2⟩

/-! Admission controller: `create_document` in `src/app/api.py` together
with the CRUD helpers of `src/app/crud.py`.  The relational store is a
list of rows; the unique indexes on `id`, `name` and `url` are carried
as `Nodup` hypotheses where a proof needs them.  The insert step is
modelled by an `InsertOutcome` parameter: either the row is inserted, or
the store raises `IntegrityError` because a concurrent request committed
first, in which case the handler re-reads the store in the state
`dbAfter` left by that concurrent commit. -/

/-- CRUD `DocumentCRUD.get_document_by_name_and_url`: first row matching
both fields. -/
def get_document_by_name_and_url (db : List Document) (name url : String) :
    Option Document :=
  db.find? (fun d => d.name == name && d.url == url)

/-- CRUD `DocumentCRUD.find_conflicting_documents`: the row owning the
name and the row owning the url, independently looked up. -/
def find_conflicting_documents (db : List Document) (name url : String) :
    Option Document × Option Document :=
  (db.find? (fun d => d.name == name), db.find? (fun d => d.url == url))

/-- Field values written by `DocumentCRUD.reset_document_for_resummary`:
status PENDING, summary/last_error/processing_time/model_used cleared,
progress 0.0; identifier, name, url and created_at untouched. -/
def resetDocValues (d : Document) : Document :=
  { d with
    status := DocumentStatus.PENDING
    summary := none
    last_error := none
    data_progress := 0
    processing_time := none
    model_used := none }

/-- CRUD `DocumentCRUD.reset_document_for_resummary`: update every row
whose id matches (the id is a primary key, so at most one) and return the
updated row, if any, together with the new store state. -/
def reset_document_for_resummary (db : List Document) (document_id : String) :
    Option Document × List Document :=
  let db' := db.map (fun d => if d.id == document_id then resetDocValues d else d)
  (db'.find? (fun d => d.id == document_id), db')

/-- Row inserted by `DocumentCRUD.create_document`: status PENDING,
progress 0.0, everything else empty. -/
def newDocument (newId name url : String) (createdAt : Nat) : Document :=
  { id := newId
    name := name
    url := url
    status := DocumentStatus.PENDING
    summary := none
    data_progress := 0
    last_error := none
    created_at := createdAt
    processing_time := none
    model_used := none }

/-- Outcome of the `crud_create_document` call inside the handler: the
insert commits, or the store raises `IntegrityError` and the handler
afterwards observes the state `dbAfter` produced by the concurrent
winner. -/
inductive InsertOutcome where
  | ok (newId : String) (createdAt : Nat)
  | integrityError (msg : String) (dbAfter : List Document)

/-- Responses the `POST /documents/` handler can produce: 202 with the
document projection, 409 with a conflict detail, or 500 with an error
detail. -/
inductive AdmissionResponse where
  | accepted (doc : Document)
  | conflict (detail : String)
  | serverError (detail : String)
deriving DecidableEq, Repr

/-- HTTP status code carried by each handler outcome. -/
def AdmissionResponse.httpStatus : AdmissionResponse → Nat
  | .accepted _ => 202
  | .conflict _ => 409
  | .serverError _ => 500

/-- Exact-match branch of the handler: reset the matched document and
return it with 202; a reset that finds no row is surfaced as a 500. -/
def resummaryPath (db : List Document) (exact : Document) :
    AdmissionResponse × List Document :=
  match reset_document_for_resummary db exact.id with
  | (some doc, db') => (.accepted doc, db')
  | (none, db') => (.serverError "Failed to reset document for re-summarization", db')

/-- Partial-conflict branch of the handler (`api.py` lines 163–194 and the
identical re-check after an `IntegrityError`): produce the 409 response,
if any, for the given store state. -/
def conflictCheck (db : List Document) (name url : String) :
    Option AdmissionResponse :=
  match find_conflicting_documents db name url with
  | (some nc, some uc) =>
    if nc.id ≠ uc.id then
      some (.conflict ("Conflict: Name \x27" ++ name ++ "\x27 exists on document "
        ++ nc.id ++ " and URL \x27" ++ url ++ "\x27 exists on document " ++ uc.id))
    else
      some (.conflict ("Conflict: Both name \x27" ++ name ++ "\x27 and URL \x27"
        ++ url ++ "\x27 already exist on document " ++ nc.id))
  | (some nc, none) =>
    some (.conflict ("Conflict: Name \x27" ++ name
      ++ "\x27 already exists on document " ++ nc.id))
  | (none, some uc) =>
    some (.conflict ("Conflict: URL \x27" ++ url
      ++ "\x27 already exists on document " ++ uc.id))
  | (none, none) => none

/-- Recovery path after an `IntegrityError` (`api.py` lines 207–277):
re-run the exact-match check against the post-race state; on a hit, reset
and return 202; otherwise re-run the conflict check; otherwise surface a
generic 500 store-integrity error.  When the reset finds no row the
source falls through to the conflict re-check. -/
def raceRecovery (dbAfter : List Document) (name url msg : String) :
    AdmissionResponse × List Document :=
  match get_document_by_name_and_url dbAfter name url with
  | some exact =>
    match reset_document_for_resummary dbAfter exact.id with
    | (some doc, db') => (.accepted doc, db')
    | (none, db') =>
      match conflictCheck db' name url with
      | some resp => (resp, db')
      | none => (.serverError ("Database integrity error: " ++ msg), db')
  | none =>
    match conflictCheck dbAfter name url with
    | some resp => (resp, dbAfter)
    | none => (.serverError ("Database integrity error: " ++ msg), dbAfter)

/-- The `POST /documents/` handler `create_document` from `src/app/api.py`:
exact match → reset and 202; partial conflict → 409; otherwise insert,
reinterpreting an `IntegrityError` through `raceRecovery`.  The dispatch
call after a successful create or reset touches only the job queue (see
`create_document_summarization_task`) and a dispatch failure is swallowed,
so it does not appear in the store transition. -/
def create_document (name url : String) (db : List Document)
    (insert : InsertOutcome) : AdmissionResponse × List Document :=
  match get_document_by_name_and_url db name url with
  | some exact => resummaryPath db exact
  | none =>
    match conflictCheck db name url with
    | some resp => (resp, db)
    | none =>
      match insert with
      | .ok newId createdAt =>
        let doc := newDocument newId name url createdAt
        (.accepted doc, db ++ [doc])
      | .integrityError msg dbAfter => raceRecovery dbAfter name url msg

/-! Store-level lemmas used by the admission theorems. -/

theorem resetDocValues_id (d : Document) : (resetDocValues d).id = d.id := rfl

theorem find?_map_reset (db : List Document) (d : Document)
    (hmem : d ∈ db) (hids : (db.map (fun e => e.id)).Nodup) :
    (db.map (fun e => if e.id == d.id then resetDocValues e else e)).find?
      (fun e => e.id == d.id) = some (resetDocValues d) := by
  induction db with
  | nil => simp at hmem
  | cons x xs ih =>
    simp only [List.map_cons, List.nodup_cons] at hids
    rw [List.map_cons, List.find?_cons]
    by_cases hx : x.id == d.id
    · rw [if_pos hx]
      have hxd : x = d := by
        rcases List.mem_cons.mp hmem with h | h
        · exact h.symm
        · exfalso
          apply hids.1
          rw [eq_of_beq hx]
          exact List.mem_map.mpr ⟨d, h, rfl⟩
      have hpred : ((resetDocValues x).id == d.id) = true := by
        rw [resetDocValues_id]
        exact hx
      rw [hpred]
      rw [hxd]
    · rw [if_neg hx]
      have hpred : (x.id == d.id) = false := by
        exact Bool.of_not_eq_true hx
      rw [hpred]
      have hmem' : d ∈ xs := by
        rcases List.mem_cons.mp hmem with h | h
        · rw [h] at hx
          exact absurd (beq_self_eq_true x.id) hx
        · exact h
      exact ih hmem' hids.2

theorem conflictCheck_is_conflict (db : List Document) (name url : String)
    (resp : AdmissionResponse) (h : conflictCheck db name url = some resp) :
    ∃ s, resp = .conflict s := by
  unfold conflictCheck at h
  split at h
  · split at h
    · exact ⟨_, (Option.some.inj h).symm⟩
    · exact ⟨_, (Option.some.inj h).symm⟩
  · exact ⟨_, (Option.some.inj h).symm⟩
  · exact ⟨_, (Option.some.inj h).symm⟩
  · simp at h

/-- Claim C1: an admission call whose (name, url) pair exactly matches an
existing document resets that document (summary/last_error cleared,
progress 0.0, status PENDING), preserves id, name, url, created_at,
returns it with 202, and this holds whatever status the prior run left
behind. -/
theorem admission_retrigger_resets (db : List Document) (name url : String)
    (insert : InsertOutcome) (d : Document)
    (hids : (db.map (fun e => e.id)).Nodup)
    (hd : get_document_by_name_and_url db name url = some d) :
    create_document name url db insert
      = (.accepted (resetDocValues d),
         db.map (fun e => if e.id == d.id then resetDocValues e else e))
    ∧ (resetDocValues d).id = d.id
    ∧ (resetDocValues d).name = d.name
    ∧ (resetDocValues d).url = d.url
    ∧ (resetDocValues d).created_at = d.created_at
    ∧ (resetDocValues d).status = DocumentStatus.PENDING
    ∧ (resetDocValues d).summary = none
    ∧ (resetDocValues d).last_error = none
    ∧ (resetDocValues d).data_progress = 0
    ∧ (AdmissionResponse.accepted (resetDocValues d)).httpStatus = 202 := by
  have hmem : d ∈ db := List.mem_of_find?_eq_some hd
  have hfind := find?_map_reset db d hmem hids
  refine ⟨?_, rfl, rfl, rfl, rfl, rfl, rfl, rfl, rfl, rfl⟩
  have hpath : create_document name url db insert = resummaryPath db d := by
    unfold create_document
    rw [hd]
  have hreset : reset_document_for_resummary db d.id
      = (some (resetDocValues d),
         db.map (fun e => if e.id == d.id then resetDocValues e else e)) := by
    unfold reset_document_for_resummary
    dsimp only
    rw [hfind]
  rw [hpath]
  unfold resummaryPath
  rw [hreset]

/-- Sample completed document used by concrete witnesses. -/
def docA : Document :=
  { id := "doc-a"
    name := "Doc A"
    url := "https://example.com/a"
    status := DocumentStatus.SUCCESS
    summary := some ['o', 'k']
    data_progress := 1
    last_error := none
    created_at := 5
    processing_time := none
    model_used := none }

/-- Sample pending document used by concrete witnesses. -/
def docB : Document :=
  { id := "doc-b"
    name := "Doc B"
    url := "https://example.com/b"
    status := DocumentStatus.PENDING
    summary := none
    data_progress := 0
    last_error := none
    created_at := 6
    processing_time := none
    model_used := none }

/-- Witness for C1: re-posting docA's (name, url) returns docA reset to
PENDING even though its prior run had completed with SUCCESS. -/
theorem admission_retrigger_resets_witness :
    create_document "Doc A" "https://example.com/a" [docA]
        (.ok "doc-new" 9)
      = (.accepted (resetDocValues docA), [resetDocValues docA]) := by
  have h := admission_retrigger_resets [docA] "Doc A" "https://example.com/a"
    (.ok "doc-new" 9) docA (by simp) rfl
  simpa using h.1

/-- Claim C2: with no exact match but a name or url collision, the handler
returns 409 naming the owning document(s), creates nothing and modifies
nothing. -/
theorem admission_partial_conflict (db : List Document) (name url : String)
    (insert : InsertOutcome)
    (hids : (db.map (fun e => e.id)).Nodup)
    (hexact : get_document_by_name_and_url db name url = none) :
    (∀ nc, db.find? (fun d => d.name == name) = some nc →
        db.find? (fun d => d.url == url) = none →
        create_document name url db insert
          = (.conflict ("Conflict: Name \x27" ++ name
              ++ "\x27 already exists on document " ++ nc.id), db))
    ∧ (∀ uc, db.find? (fun d => d.name == name) = none →
        db.find? (fun d => d.url == url) = some uc →
        create_document name url db insert
          = (.conflict ("Conflict: URL \x27" ++ url
              ++ "\x27 already exists on document " ++ uc.id), db))
    ∧ (∀ nc uc, db.find? (fun d => d.name == name) = some nc →
        db.find? (fun d => d.url == url) = some uc →
        nc.id ≠ uc.id
        ∧ create_document name url db insert
          = (.conflict ("Conflict: Name \x27" ++ name ++ "\x27 exists on document "
              ++ nc.id ++ " and URL \x27" ++ url ++ "\x27 exists on document "
              ++ uc.id), db))
    ∧ (((db.find? (fun d => d.name == name)).isSome
          ∨ (db.find? (fun d => d.url == url)).isSome) →
        ∀ resp db', create_document name url db insert = (resp, db') →
          resp.httpStatus = 409 ∧ db' = db) := by
  have hstep : ∀ r, conflictCheck db name url = some r →
      create_document name url db insert = (r, db) := by
    intro r hr
    unfold create_document
    rw [hexact, hr]
  have hnoboth := List.find?_eq_none.mp hexact
  have hdistinct : ∀ nc uc, db.find? (fun d => d.name == name) = some nc →
      db.find? (fun d => d.url == url) = some uc → nc.id ≠ uc.id := by
    intro nc uc hn hu hid
    have hncmem := List.mem_of_find?_eq_some hn
    have hucmem := List.mem_of_find?_eq_some hu
    have heq : nc = uc :=
      List.inj_on_of_nodup_map hids hncmem hucmem hid
    have hname := List.find?_some hn
    have hurl := List.find?_some hu
    apply hnoboth nc hncmem
    rw [hname, heq, hurl]
    rfl
  refine ⟨?_, ?_, ?_, ?_⟩
  · intro nc h1 h2
    refine hstep _ ?_
    unfold conflictCheck find_conflicting_documents
    rw [h1, h2]
  · intro uc h1 h2
    refine hstep _ ?_
    unfold conflictCheck find_conflicting_documents
    rw [h1, h2]
  · intro nc uc h1 h2
    have hne := hdistinct nc uc h1 h2
    refine ⟨hne, hstep _ ?_⟩
    unfold conflictCheck find_conflicting_documents
    rw [h1, h2]
    dsimp only
    rw [if_pos hne]
  · intro hsome resp db' heq
    have hcc : ∃ r, conflictCheck db name url = some r := by
      unfold conflictCheck find_conflicting_documents
      rcases hn : db.find? (fun d => d.name == name) with _ | nc <;>
        rcases hu : db.find? (fun d => d.url == url) with _ | uc <;>
        rw [hn, hu]
      · rw [hn, hu] at hsome
        simp at hsome
      · exact ⟨_, rfl⟩
      · exact ⟨_, rfl⟩
      · by_cases hne : nc.id ≠ uc.id
        · dsimp only
          rw [if_pos hne]
          exact ⟨_, rfl⟩
        · dsimp only
          rw [if_neg hne]
          exact ⟨_, rfl⟩
    obtain ⟨r, hr⟩ := hcc
    obtain ⟨s, rfl⟩ := conflictCheck_is_conflict db name url r hr
    rw [hstep _ hr] at heq
    injection heq with h1 h2
    constructor
    · rw [← h1]; rfl
    · exact h2.symm

/-- Witness for C2: posting docA's name with a fresh url yields the 409
naming docA and leaves the store untouched. -/
theorem admission_partial_conflict_witness :
    create_document "Doc A" "https://example.com/other" [docA] (.ok "x" 0)
      = (.conflict ("Conflict: Name \x27" ++ "Doc A"
          ++ "\x27 already exists on document " ++ docA.id), [docA]) := by
  exact (admission_partial_conflict [docA] "Doc A" "https://example.com/other"
    (.ok "x" 0) (by simp) rfl).1 docA rfl rfl

/-- Claim C3: when the insert raises a store integrity violation, the
handler re-runs the exact-match check against the state left by the
concurrent winner; a hit is answered exactly like a re-trigger (202 with
the winner's id), otherwise the conflict check is re-run (409), otherwise
a generic 500 store-integrity error is returned. -/
theorem admission_race_recovery (db dbAfter : List Document)
    (name url msg : String)
    (hexact : get_document_by_name_and_url db name url = none)
    (hnoconf : conflictCheck db name url = none)
    (hids : (dbAfter.map (fun e => e.id)).Nodup) :
    (∀ d, get_document_by_name_and_url dbAfter name url = some d →
        create_document name url db (.integrityError msg dbAfter)
          = (.accepted (resetDocValues d),
             dbAfter.map (fun e => if e.id == d.id then resetDocValues e else e))
        ∧ (resetDocValues d).id = d.id
        ∧ (resetDocValues d).status = DocumentStatus.PENDING
        ∧ (AdmissionResponse.accepted (resetDocValues d)).httpStatus = 202)
    ∧ (get_document_by_name_and_url dbAfter name url = none →
        (∀ resp, conflictCheck dbAfter name url = some resp →
            create_document name url db (.integrityError msg dbAfter)
              = (resp, dbAfter)
            ∧ resp.httpStatus = 409)
        ∧ (conflictCheck dbAfter name url = none →
            create_document name url db (.integrityError msg dbAfter)
              = (.serverError ("Database integrity error: " ++ msg), dbAfter))) := by
  have hbase : create_document name url db (.integrityError msg dbAfter)
      = raceRecovery dbAfter name url msg := by
    unfold create_document
    rw [hexact, hnoconf]
  constructor
  · intro d hd
    have hmem : d ∈ dbAfter := List.mem_of_find?_eq_some hd
    have hfind := find?_map_reset dbAfter d hmem hids
    refine ⟨?_, rfl, rfl, rfl⟩
    have hreset : reset_document_for_resummary dbAfter d.id
        = (some (resetDocValues d),
           dbAfter.map (fun e => if e.id == d.id then resetDocValues e else e)) := by
      unfold reset_document_for_resummary
      dsimp only
      rw [hfind]
    rw [hbase]
    unfold raceRecovery
    rw [hd]
    dsimp only
    rw [hreset]
  · intro hnone
    constructor
    · intro resp hcc
      obtain ⟨s, rfl⟩ := conflictCheck_is_conflict dbAfter name url resp hcc
      refine ⟨?_, rfl⟩
      rw [hbase]
      unfold raceRecovery
      rw [hnone, hcc]
    · intro hccnone
      rw [hbase]
      unfold raceRecovery
      rw [hnone, hccnone]

/-- Witness for C3: the loser of a creation race on docB's (name, url)
receives docB's id with the reset state, not an error. -/
theorem admission_race_recovery_witness :
    create_document "Doc B" "https://example.com/b" []
        (.integrityError "duplicate key" [docB])
      = (.accepted (resetDocValues docB), [resetDocValues docB]) := by
  have h := (admission_race_recovery [] [docB] "Doc B" "https://example.com/b"
    "duplicate key" rfl rfl (by simp)).1 docB rfl
  simpa using h.1

/-! Pipeline executor: `summarize_document` in `src/app/tasks.py` and the
text post-processing of `src/app/extraction.py` it calls.  The run is
modelled as the list of store/cache effects it performs, in program
order, together with how the coroutine exits (normal return or raised
exception).  The fetch result and the generation result come from the
network and are parameters of the model. -/

/-- ASCII whitespace matched by the `\s` class used in
`normalize_whitespace` and by Python `str.strip`. -/
def pyIsSpace (c : Char) : Bool :=
  c == ' ' || c == '\t' || c == '\n' || c == '\r' || c == '\x0b' || c == '\x0c'

/-- Replacement of every whitespace run by a single space,
`re.sub(r"\s+", " ", text)` in `normalize_whitespace`; `prevSpace`
remembers whether the previous character belonged to a whitespace run. -/
def collapseWsAux (prevSpace : Bool) : List Char → List Char
  | [] => []
  | c :: rest =>
    if pyIsSpace c then
      if prevSpace then collapseWsAux true rest
      else ' ' :: collapseWsAux true rest
    else c :: collapseWsAux false rest

/-- Replacement of every whitespace run by a single space. -/
def collapseWs (l : List Char) : List Char := collapseWsAux false l

/-- Python `str.strip`: drop whitespace from both ends. -/
def pyStrip (l : List Char) : List Char :=
  ((l.dropWhile pyIsSpace).reverse.dropWhile pyIsSpace).reverse

/-- `normalize_whitespace` from `src/app/extraction.py`. -/
def normalize_whitespace (text : List Char) : List Char :=
  if text.isEmpty then []
  else pyStrip (collapseWs text)

/-- Rendering of a pending newline run: runs of three or more newlines
collapse to exactly two, shorter runs stay as they are. -/
def nlRun (run : Nat) : List Char :=
  if run = 0 then []
  else if 3 ≤ run then ['\n', '\n']
  else List.replicate run '\n'

/-- Replacement of every run of three or more newlines by exactly two,
`re.sub(r"\n{3,}", "\n\n", content)` in `ContentExtractor.clean_content`;
`run` counts the newlines read but not yet emitted. -/
def collapseNlAux (run : Nat) : List Char → List Char
  | [] => nlRun run
  | c :: rest =>
    if c = '\n' then collapseNlAux (run + 1) rest
    else nlRun run ++ (c :: collapseNlAux 0 rest)

/-- Replacement of every run of three or more newlines by exactly two. -/
def collapseNl (l : List Char) : List Char := collapseNlAux 0 l

/-- `ContentExtractor.clean_content` from `src/app/extraction.py`. -/
def clean_content (content : List Char) : List Char :=
  if content.isEmpty then []
  else collapseNl (normalize_whitespace content)

/-- Per-stage progress checkpoints, `DOCUMENT_STAGE_PROGRESS` in
`src/app/constants.py`. -/
def DOCUMENT_STAGE_PROGRESS : DocumentStatus → Rat
  | DocumentStatus.PENDING => 0
  | DocumentStatus.FETCHING => 0.2
  | DocumentStatus.PARSING => 0.4
  | DocumentStatus.SUMMARIZING => 0.9
  | DocumentStatus.SUCCESS => 1
  | DocumentStatus.FAILED => 0

/-- One store or cache write performed by the pipeline: the `db*` effects
are the durable `update_document_*` commits, `mirror` is
`update_document_progress_redis`, and `lockDelete` is the
`redis_conn.delete("doc_job:" + document_id)` cleanup. -/
inductive DocEffect where
  | dbStatus (s : DocumentStatus)
  | dbProgress (p : Rat)
  | dbSummary (s : List Char)
  | dbError (e : String)
  | mirror (stage : DocumentStatus) (progress : Rat) (errorMessage : Option String)
  | lockDelete
deriving DecidableEq, Repr

/-- Writes performed on entering a stage (`tasks.py`: status update,
durable progress checkpoint, mirror update, in that order). -/
def stageEffects (st : DocumentStatus) : List DocEffect :=
  [.dbStatus st, .dbProgress (DOCUMENT_STAGE_PROGRESS st),
   .mirror st (DOCUMENT_STAGE_PROGRESS st) none]

/-- Writes performed by the `except` failure handler plus the `finally`
cleanup: record the error, set FAILED, mirror the failure with progress
0.0, delete the dispatch lock (once inside the handler, once again in
`finally`). -/
def failureEffects (msg : String) : List DocEffect :=
  [.dbError msg, .dbStatus DocumentStatus.FAILED,
   .mirror DocumentStatus.FAILED (DOCUMENT_STAGE_PROGRESS DocumentStatus.FAILED)
     (some msg),
   .lockDelete, .lockDelete]

/-- Writes of the SUCCESS epilogue plus the `finally` cleanup: persist the
summary, set SUCCESS, force durable progress to exactly 1.0, mirror, and
delete the dispatch lock. -/
def successEffects (summary : List Char) : List DocEffect :=
  [.dbSummary summary, .dbStatus DocumentStatus.SUCCESS, .dbProgress 1,
   .mirror DocumentStatus.SUCCESS (DOCUMENT_STAGE_PROGRESS DocumentStatus.SUCCESS)
     none,
   .lockDelete]

/-- Outcome of the FETCHING stage network call
(`ContentExtractor.extract_content_from_url`). -/
inductive FetchOutcome where
  | ok (content : List Char)
  | err (msg : String)

/-- Outcome of the SUMMARIZING stage model call (`ollama_client.summarize`). -/
inductive SummarizeOutcome where
  | ok (generated : List Char)
  | err (msg : String)

/-- How the pipeline coroutine exits: normal return, or an exception
propagating to the worker. -/
inductive RunExit where
  | returned
  | raised (msg : String)
deriving DecidableEq, Repr

/-- Embedding of the pipeline `summarize_document(document_id)` from
`src/app/tasks.py`: the document row read at entry, the fetch outcome and
the generation outcome determine the sequence of effects and the exit.
A missing document raises before the staged `try`; a document already in
a terminal state returns before it; both therefore produce no effects at
all — in particular no lock deletion. -/
def summarize_document (document_id : String) (doc : Option Document)
    (fetch : FetchOutcome) (summ : SummarizeOutcome) :
    List DocEffect × RunExit :=
  match doc with
  | none => ([], .raised ("Document " ++ document_id ++ " not found"))
  | some d =>
    if d.status = DocumentStatus.SUCCESS ∨ d.status = DocumentStatus.FAILED then
      ([], .returned)
    else
      match fetch with
      | .err msg =>
        (stageEffects DocumentStatus.FETCHING ++ failureEffects msg, .raised msg)
      | .ok content =>
        let parsed := clean_content content
        if parsed.isEmpty ∨ (pyStrip parsed).length < 10 then
          let msg := "Parsed content is empty or too short (length: "
            ++ toString parsed.length ++ ")"
          (stageEffects DocumentStatus.FETCHING
            ++ stageEffects DocumentStatus.PARSING ++ failureEffects msg,
           .raised msg)
        else
          match summ with
          | .err msg =>
            (stageEffects DocumentStatus.FETCHING
              ++ stageEffects DocumentStatus.PARSING
              ++ stageEffects DocumentStatus.SUMMARIZING ++ failureEffects msg,
             .raised msg)
          | .ok generated =>
            let summary :=
              if 1500 < generated.length then
                trim_to_sentence_boundary generated 1500
              else generated
            (stageEffects DocumentStatus.FETCHING
              ++ stageEffects DocumentStatus.PARSING
              ++ stageEffects DocumentStatus.SUMMARIZING
              ++ successEffects summary,
             .returned)

/-- Sequence of values committed to the durable `data_progress` column
during the run, in program order. -/
def durableProgressWrites (tr : List DocEffect) : List Rat :=
  tr.filterMap (fun e => match e with | .dbProgress p => some p | _ => none)

/-- Sequence of values committed to the durable `status` column during
the run, in program order. -/
def durableStatusWrites (tr : List DocEffect) : List DocumentStatus :=
  tr.filterMap (fun e => match e with | .dbStatus s => some s | _ => none)

/-- Last durable status committed by the run, if any. -/
def finalStatusWrite (tr : List DocEffect) : Option DocumentStatus :=
  (durableStatusWrites tr).getLast?

/-- Claim C5, amended: within one run the durable progress writes are a
prefix of the checkpoint sequence 0.20, 0.40, 0.90, 1.00 and hence
monotonically non-decreasing, and they end at exactly 1.0 when the run
commits SUCCESS; but the failure path performs no durable progress write
at all, so when the run commits FAILED the durable progress keeps the
checkpoint of the last stage entered (0.20, 0.40 or 0.90) — the FAILED
value 0.0 reaches only the progress mirror. -/
theorem pipeline_progress_writes (document_id : String) (doc : Option Document)
    (fetch : FetchOutcome) (summ : SummarizeOutcome) :
    durableProgressWrites (summarize_document document_id doc fetch summ).1
        <+: [(0.2 : Rat), 0.4, 0.9, 1]
    ∧ List.Chain' (· ≤ ·)
        (durableProgressWrites (summarize_document document_id doc fetch summ).1)
    ∧ (finalStatusWrite (summarize_document document_id doc fetch summ).1
          = some DocumentStatus.SUCCESS →
        (durableProgressWrites
            (summarize_document document_id doc fetch summ).1).getLast? = some 1)
    ∧ (finalStatusWrite (summarize_document document_id doc fetch summ).1
          = some DocumentStatus.FAILED →
        ((durableProgressWrites
              (summarize_document document_id doc fetch summ).1).getLast?
            = some 0.2
          ∨ (durableProgressWrites
              (summarize_document document_id doc fetch summ).1).getLast?
            = some 0.4
          ∨ (durableProgressWrites
              (summarize_document document_id doc fetch summ).1).getLast?
            = some 0.9)
        ∧ (0 : Rat) ∉ durableProgressWrites
            (summarize_document document_id doc fetch summ).1
        ∧ ∃ m, DocEffect.mirror DocumentStatus.FAILED 0 (some m)
            ∈ (summarize_document document_id doc fetch summ).1) := by
  unfold summarize_document
  cases doc with
  | none =>
    refine ⟨⟨[(0.2 : Rat), 0.4, 0.9, 1], rfl⟩, ?_,
      fun h => Option.noConfusion h, fun h => Option.noConfusion h⟩
    show List.Chain' (· ≤ ·) ([] : List Rat)
    decide
  | some d =>
    dsimp only
    by_cases hterm : d.status = DocumentStatus.SUCCESS
        ∨ d.status = DocumentStatus.FAILED
    · rw [if_pos hterm]
      refine ⟨⟨[(0.2 : Rat), 0.4, 0.9, 1], rfl⟩, ?_,
        fun h => Option.noConfusion h, fun h => Option.noConfusion h⟩
      show List.Chain' (· ≤ ·) ([] : List Rat)
      simp
    · rw [if_neg hterm]
      cases fetch with
      | err msg =>
        refine ⟨⟨[(0.4 : Rat), 0.9, 1], rfl⟩, ?_,
          fun h => DocumentStatus.noConfusion (Option.some.inj h),
          fun _ => ⟨Or.inl rfl, ?_, msg, ?_⟩⟩
        · show List.Chain' (· ≤ ·) [(0.2 : Rat)]
          simp
        · show (0 : Rat) ∉ [(0.2 : Rat)]
          norm_num
        · simp [stageEffects, failureEffects, DOCUMENT_STAGE_PROGRESS]
      | ok content =>
        dsimp only
        by_cases hpar : (clean_content content).isEmpty
            ∨ (pyStrip (clean_content content)).length < 10
        · rw [if_pos hpar]
          refine ⟨⟨[(0.9 : Rat), 1], rfl⟩, ?_,
            fun h => DocumentStatus.noConfusion (Option.some.inj h),
            fun _ => ⟨Or.inr (Or.inl rfl), ?_,
              "Parsed content is empty or too short (length: "
                ++ toString (clean_content content).length ++ ")", ?_⟩⟩
          · show List.Chain' (· ≤ ·) [(0.2 : Rat), 0.4]
            norm_num [List.chain'_cons, List.chain'_singleton]
          · show (0 : Rat) ∉ [(0.2 : Rat), 0.4]
            norm_num
          · simp [stageEffects, failureEffects, DOCUMENT_STAGE_PROGRESS]
        · rw [if_neg hpar]
          cases summ with
          | err msg =>
            refine ⟨⟨[(1 : Rat)], rfl⟩, ?_,
              fun h => DocumentStatus.noConfusion (Option.some.inj h),
              fun _ => ⟨Or.inr (Or.inr rfl), ?_, msg, ?_⟩⟩
            · show List.Chain' (· ≤ ·) [(0.2 : Rat), 0.4, 0.9]
              norm_num [List.chain'_cons, List.chain'_singleton]
            · show (0 : Rat) ∉ [(0.2 : Rat), 0.4, 0.9]
              norm_num
            · simp [stageEffects, failureEffects, DOCUMENT_STAGE_PROGRESS]
          | ok generated =>
            refine ⟨⟨[], ?_⟩, ?_, fun _ => rfl,
              fun h => DocumentStatus.noConfusion (Option.some.inj h)⟩
            · show [(0.2 : Rat), 0.4, 0.9, 1] ++ [] = [(0.2 : Rat), 0.4, 0.9, 1]
              rfl
            · show List.Chain' (· ≤ ·) [(0.2 : Rat), 0.4, 0.9, 1]
              norm_num [List.chain'_cons, List.chain'_singleton]

/-- Claim C5 counterexample: a run over the pending document docB whose
fetch fails ends with a durable FAILED status, yet the last durable
progress write is 0.2 (the FETCHING checkpoint), not 0.0 — no durable
progress write happens on the failure path. -/
theorem pipeline_failed_progress_counterexample :
    finalStatusWrite (summarize_document "doc-b" (some docB)
        (.err "fetch failed") (.ok [])).1 = some DocumentStatus.FAILED
    ∧ durableProgressWrites (summarize_document "doc-b" (some docB)
        (.err "fetch failed") (.ok [])).1 = [0.2]
    ∧ (durableProgressWrites (summarize_document "doc-b" (some docB)
        (.err "fetch failed") (.ok [])).1).getLast? = some 0.2
    ∧ (0.2 : Rat) ≠ 0 :=
  ⟨rfl, rfl, rfl, by norm_num⟩

/-- Witness for the amended C5 on a successful run: the durable progress
writes are exactly the monotone checkpoint sequence ending at 1.0. -/
theorem pipeline_progress_writes_witness :
    durableProgressWrites (summarize_document "doc-b" (some docB)
        (.ok (List.replicate 20 'x')) (.ok ['o', 'k', '.'])).1
      = [0.2, 0.4, 0.9, 1]
    ∧ (durableProgressWrites (summarize_document "doc-b" (some docB)
        (.ok (List.replicate 20 'x')) (.ok ['o', 'k', '.'])).1).getLast?
      = some 1 := by
  have h := pipeline_progress_writes "doc-b" (some docB)
    (.ok (List.replicate 20 'x')) (.ok ['o', 'k', '.'])
  exact ⟨rfl, h.2.2.1 rfl⟩

/-- Claim C6, amended: the dispatch lock `doc_job:{document_id}` is
deleted as the final action on every exit of the staged section — normal
success and every failure path — but the two early exits (document
missing, document already terminal) happen before the `try`/`finally`
protecting the lock and therefore do not delete it. -/
theorem pipeline_lock_release_amended (document_id : String)
    (doc : Option Document) (fetch : FetchOutcome) (summ : SummarizeOutcome) :
    (∀ d, doc = some d → d.status ≠ DocumentStatus.SUCCESS →
        d.status ≠ DocumentStatus.FAILED →
        ((summarize_document document_id doc fetch summ).1).getLast?
          = some DocEffect.lockDelete)
    ∧ (doc = none → (summarize_document document_id doc fetch summ).1 = [])
    ∧ (∀ d, doc = some d →
        (d.status = DocumentStatus.SUCCESS ∨ d.status = DocumentStatus.FAILED) →
        (summarize_document document_id doc fetch summ).1 = []) := by
  refine ⟨?_, ?_, ?_⟩
  · intro d hd hns hnf
    subst hd
    unfold summarize_document
    dsimp only
    rw [if_neg (by tauto)]
    cases fetch with
    | err msg => rfl
    | ok content =>
      dsimp only
      by_cases hpar : (clean_content content).isEmpty
          ∨ (pyStrip (clean_content content)).length < 10
      · rw [if_pos hpar]
        rfl
      · rw [if_neg hpar]
        cases summ with
        | err msg => rfl
        | ok generated => rfl
  · intro hd
    subst hd
    rfl
  · intro d hd hterm
    subst hd
    unfold summarize_document
    dsimp only
    rw [if_pos hterm]

/-- Claim C6 counterexample: a run dispatched for docA, which is already
in the terminal SUCCESS state, returns without performing any effect —
in particular without deleting the dispatch lock. -/
theorem pipeline_lock_leak_counterexample :
    (summarize_document "doc-a" (some docA) (.ok []) (.ok [])).2
      = RunExit.returned
    ∧ DocEffect.lockDelete
        ∉ (summarize_document "doc-a" (some docA) (.ok []) (.ok [])).1 := by
  refine ⟨rfl, fun h => ?_⟩
  exact List.not_mem_nil DocEffect.lockDelete h

/-- Witness for the amended C6: a failing run over the pending docB ends
with the lock deletion. -/
theorem pipeline_lock_release_amended_witness :
    ((summarize_document "doc-b" (some docB) (.err "boom") (.ok [])).1).getLast?
      = some DocEffect.lockDelete := by
  exact (pipeline_lock_release_amended "doc-b" (some docB) (.err "boom")
    (.ok [])).1 docB rfl (by decide) (by decide)

/-! Observable document states: the store row as seen after each durable
write of the pipeline. -/

/-- Effect of one pipeline write on the stored document row (mirror and
lock writes do not touch the row). -/
def applyEffect (d : Document) : DocEffect → Document
  | .dbStatus s => { d with status := s }
  | .dbProgress p => { d with data_progress := p }
  | .dbSummary s => { d with summary := some s }
  | .dbError e => { d with last_error := some e }
  | .mirror _ _ _ => d
  | .lockDelete => d

/-- The summary/status invariant of claim C7: no summary while
PENDING/FETCHING/PARSING; a summary of at most 1500 characters on
SUCCESS. -/
def DocInvariant (d : Document) : Prop :=
  ((d.status = DocumentStatus.PENDING ∨ d.status = DocumentStatus.FETCHING
      ∨ d.status = DocumentStatus.PARSING) → d.summary = none)
  ∧ (d.status = DocumentStatus.SUCCESS →
      ∃ s, d.summary = some s ∧ s.length ≤ 1500)

theorem docInvariant_of_none (d : Document) (hsum : d.summary = none)
    (hns : d.status ≠ DocumentStatus.SUCCESS) : DocInvariant d :=
  ⟨fun _ => hsum, fun h => absurd h hns⟩

theorem docInvariant_of_status_aux (d : Document)
    (h : d.status = DocumentStatus.SUMMARIZING
      ∨ d.status = DocumentStatus.FAILED) :
    DocInvariant d := by
  constructor
  · intro h2
    rcases h with h | h <;> rcases h2 with h2 | h2 | h2 <;> rw [h] at h2 <;>
      cases h2
  · intro h2
    rcases h with h | h <;> rw [h] at h2 <;> cases h2

theorem docInvariant_success (d : Document) (s : List Char)
    (hs : d.summary = some s) (hst : d.status = DocumentStatus.SUCCESS)
    (hlen : s.length ≤ 1500) : DocInvariant d := by
  constructor
  · intro h2
    rcases h2 with h2 | h2 | h2 <;> rw [hst] at h2 <;> cases h2
  · intro _
    exact ⟨s, hs, hlen⟩

theorem summary_length_bound (generated : List Char) :
    (if 1500 < generated.length then trim_to_sentence_boundary generated 1500
     else generated).length ≤ 1500 := by
  split
  · exact trim_length_le generated 1500 (by assumption)
  · omega

/-- Claim C7: the summary/status invariant holds at every observable
point of the document lifecycle — the row produced by creation, the row
produced by a re-trigger reset, and every intermediate row of a pipeline
run entered from such a row (status PENDING, summary null). -/
theorem summary_status_invariant :
    (∀ newId name url createdAt,
        DocInvariant (newDocument newId name url createdAt))
    ∧ (∀ d, DocInvariant (resetDocValues d))
    ∧ (∀ document_id d fetch summ,
        d.status = DocumentStatus.PENDING → d.summary = none →
        ∀ e ∈ List.scanl applyEffect d
            (summarize_document document_id (some d) fetch summ).1,
          DocInvariant e) := by
  refine ⟨?_, ?_, ?_⟩
  · intro newId name url createdAt
    exact docInvariant_of_none _ rfl (fun h => DocumentStatus.noConfusion h)
  · intro d
    exact docInvariant_of_none _ rfl (fun h => DocumentStatus.noConfusion h)
  · intro document_id d fetch summ hst hsum e he
    have hterm : ¬(d.status = DocumentStatus.SUCCESS
        ∨ d.status = DocumentStatus.FAILED) := by
      rw [hst]
      rintro (h | h) <;> cases h
    unfold summarize_document at he
    dsimp only at he
    rw [if_neg hterm] at he
    cases fetch with
    | err msg =>
      dsimp only at he
      simp only [stageEffects, failureEffects, DOCUMENT_STAGE_PROGRESS,
        List.cons_append, List.nil_append, List.scanl_cons, List.scanl_nil,
        applyEffect, List.mem_cons, List.not_mem_nil, or_false] at he
      rcases he with rfl | rfl | rfl | rfl | rfl | rfl | rfl | rfl | rfl <;>
        first
          | exact docInvariant_of_none _ hsum
              (fun h => by rw [h] at hst; cases hst)
          | exact docInvariant_of_none _ hsum
              (fun h => DocumentStatus.noConfusion h)
    | ok content =>
      dsimp only at he
      by_cases hpar : (clean_content content).isEmpty
          ∨ (pyStrip (clean_content content)).length < 10
      · rw [if_pos hpar] at he
        simp only [stageEffects, failureEffects, DOCUMENT_STAGE_PROGRESS,
          List.cons_append, List.nil_append, List.scanl_cons, List.scanl_nil,
          applyEffect, List.mem_cons, List.not_mem_nil, or_false] at he
        rcases he with rfl | rfl | rfl | rfl | rfl | rfl | rfl | rfl | rfl
          | rfl | rfl | rfl <;>
          first
            | exact docInvariant_of_none _ hsum
                (fun h => by rw [h] at hst; cases hst)
            | exact docInvariant_of_none _ hsum
                (fun h => DocumentStatus.noConfusion h)
      · rw [if_neg hpar] at he
        cases summ with
        | err msg =>
          dsimp only at he
          simp only [stageEffects, failureEffects, DOCUMENT_STAGE_PROGRESS,
            List.cons_append, List.nil_append, List.scanl_cons, List.scanl_nil,
            applyEffect, List.mem_cons, List.not_mem_nil, or_false] at he
          rcases he with rfl | rfl | rfl | rfl | rfl | rfl | rfl | rfl | rfl
            | rfl | rfl | rfl | rfl | rfl | rfl <;>
            first
              | exact docInvariant_of_none _ hsum
                  (fun h => by rw [h] at hst; cases hst)
              | exact docInvariant_of_none _ hsum
                  (fun h => DocumentStatus.noConfusion h)
        | ok generated =>
          dsimp only at he
          simp only [stageEffects, successEffects, DOCUMENT_STAGE_PROGRESS,
            List.cons_append, List.nil_append, List.scanl_cons, List.scanl_nil,
            applyEffect, List.mem_cons, List.not_mem_nil, or_false] at he
          rcases he with rfl | rfl | rfl | rfl | rfl | rfl | rfl | rfl | rfl
            | rfl | rfl | rfl | rfl | rfl | rfl <;>
            first
              | exact docInvariant_of_none _ hsum
                  (fun h => by rw [h] at hst; cases hst)
              | exact docInvariant_of_none _ hsum
                  (fun h => DocumentStatus.noConfusion h)
              | exact docInvariant_of_status_aux _ (Or.inl rfl)
              | exact docInvariant_success _ _ rfl rfl
                  (summary_length_bound generated)

/-- Witness for C7 at concrete inputs: the invariant holds for a freshly
created row, for the reset of the completed docA, and for every
observable state of a successful run over docB. -/
theorem summary_status_invariant_witness :
    DocInvariant (newDocument "id-1" "Doc C" "https://example.com/c" 7)
    ∧ DocInvariant (resetDocValues docA)
    ∧ ∀ e ∈ List.scanl applyEffect docB
        (summarize_document "doc-b" (some docB)
          (.ok (List.replicate 20 'x')) (.ok ['o', 'k', '.'])).1,
        DocInvariant e := by
  refine ⟨summary_status_invariant.1 "id-1" "Doc C" "https://example.com/c" 7,
    summary_status_invariant.2.1 docA,
    summary_status_invariant.2.2 "doc-b" docB
      (.ok (List.replicate 20 'x')) (.ok ['o', 'k', '.']) rfl rfl⟩

/-! Job dispatcher: `create_document_summarization_task` in
`src/app/tasks.py`.  Redis string keys live in association lists carrying
an explicit TTL; the RQ broker is a job list plus a queue.  The two
`uuid4`/RQ-generated identifiers consumed by one call are passed in as
the distinct fresh strings `freshTaskId` (the task id built by
`create_task_id`) and `freshJobId` (the id RQ assigns to the enqueued
job). -/

/-- Lookup in a TTL-carrying Redis key space (first binding wins). -/
def kvGet {α : Type} (l : List (String × α × Nat)) (k : String) : Option α :=
  (l.find? (fun e => e.1 == k)).map (fun e => e.2.1)

/-- TTL recorded for a key, if bound. -/
def kvTtl {α : Type} (l : List (String × α × Nat)) (k : String) : Option Nat :=
  (l.find? (fun e => e.1 == k)).map (fun e => e.2.2)

/-- Redis `SETEX`: (re)bind a key with a value and a TTL. -/
def kvSetex {α : Type} (l : List (String × α × Nat)) (k : String) (v : α)
    (ttl : Nat) : List (String × α × Nat) :=
  (k, v, ttl) :: l.filter (fun e => !(e.1 == k))

/-- RQ job states returned by `Job.get_status()`. -/
inductive JobStatus where
  | queued
  | started
  | deferred
  | finished
  | failed
  | scheduled
  | stopped
  | canceled
deriving DecidableEq, Repr

/-- An RQ job known to the broker. -/
structure RqJob where
  id : String
  status : JobStatus
deriving DecidableEq, Repr

/-- Task metadata record stored under `task:{task_id}` (the Run record of
the spec), as built in `create_document_summarization_task`. -/
structure TaskMeta where
  id : String
  type : String
  document_id : String
  status : String
  progress : Rat
deriving DecidableEq, Repr

/-- State touched by the dispatcher: the three Redis key spaces
(`task:*`, `job:*`, `doc_job:*` — the last is the Dispatch Lock), the
broker's job registry, and the queue of enqueued job ids. -/
structure DispatchState where
  tasks : List (String × TaskMeta × Nat)
  jobKeys : List (String × String × Nat)
  docJob : List (String × String × Nat)
  jobs : List RqJob
  queue : List String
deriving DecidableEq, Repr

/-- `Job.fetch`: look the job id up at the broker; an unknown id raises,
which the caller turns into "proceed to create". -/
def fetchJob (jobs : List RqJob) (jid : String) : Option RqJob :=
  jobs.find? (fun j => j.id == jid)

/-- The creation half of `create_document_summarization_task`: store the
task record under `task:{freshTaskId}` with TTL 3600, enqueue the job
(RQ assigns it `freshJobId`), record `job:{freshTaskId} → freshJobId`,
point the Dispatch Lock `doc_job:{document_id}` at `freshJobId` with TTL
3600, and return the task id. -/
def dispatchCreateNew (st : DispatchState)
    (document_id freshTaskId freshJobId : String) : String × DispatchState :=
  let meta : TaskMeta :=
    { id := freshTaskId
      type := "document_summarize"
      document_id := document_id
      status := "pending"
      progress := 0 }
  let job : RqJob := { id := freshJobId, status := JobStatus.queued }
  (freshTaskId,
   { tasks := kvSetex st.tasks ("task:" ++ freshTaskId) meta 3600
     jobKeys := kvSetex st.jobKeys ("job:" ++ freshTaskId) freshJobId 3600
     docJob := kvSetex st.docJob ("doc_job:" ++ document_id) freshJobId 3600
     jobs := st.jobs ++ [job]
     queue := st.queue ++ [freshJobId] })

/-- Embedding of `create_document_summarization_task(document_id)`: if
the Dispatch Lock points at a job the broker reports as queued or
started, return that job id and change nothing; otherwise (no lock, lock
pointing at an unknown job, or lock pointing at a finished job) create a
new task and job. -/
def create_document_summarization_task (st : DispatchState)
    (document_id freshTaskId freshJobId : String) : String × DispatchState :=
  match kvGet st.docJob ("doc_job:" ++ document_id) with
  | some jid =>
    match fetchJob st.jobs jid with
    | some job =>
      if job.status = JobStatus.queued ∨ job.status = JobStatus.started then
        (jid, st)
      else dispatchCreateNew st document_id freshTaskId freshJobId
    | none => dispatchCreateNew st document_id freshTaskId freshJobId
  | none => dispatchCreateNew st document_id freshTaskId freshJobId

/-- No active run is recorded for `document_id`: any lock present points
at a job the broker either does not know or reports as no longer
queued/started. -/
def lockInactive (st : DispatchState) (document_id : String) : Prop :=
  ∀ jid, kvGet st.docJob ("doc_job:" ++ document_id) = some jid →
    ∀ job, fetchJob st.jobs jid = some job →
      job.status ≠ JobStatus.queued ∧ job.status ≠ JobStatus.started

theorem kvGet_setex_self {α : Type} (l : List (String × α × Nat)) (k : String)
    (v : α) (ttl : Nat) : kvGet (kvSetex l k v ttl) k = some v := by
  unfold kvGet kvSetex
  rw [List.find?_cons_of_pos _ (by simp)]
  rfl

theorem kvTtl_setex_self {α : Type} (l : List (String × α × Nat)) (k : String)
    (v : α) (ttl : Nat) : kvTtl (kvSetex l k v ttl) k = some ttl := by
  unfold kvTtl kvSetex
  rw [List.find?_cons_of_pos _ (by simp)]
  rfl

/-- Claim C4, amended: when the Dispatch Lock points at a queued or
started job the call is an idempotent no-op returning the locked job id;
otherwise it creates a new Run record under a fresh task id (TTL 3600),
enqueues one new job, and sets the Dispatch Lock — to the enqueued job's
id, with the same TTL 3600 as the Run record — while returning the fresh
task id.  The lock therefore stores the RQ job id, which differs from
the returned task id. -/
theorem dispatch_idempotency_amended (st : DispatchState)
    (document_id freshTaskId freshJobId : String) :
    (∀ jid job, kvGet st.docJob ("doc_job:" ++ document_id) = some jid →
        fetchJob st.jobs jid = some job →
        (job.status = JobStatus.queued ∨ job.status = JobStatus.started) →
        create_document_summarization_task st document_id freshTaskId freshJobId
          = (jid, st))
    ∧ (lockInactive st document_id →
        (create_document_summarization_task st document_id freshTaskId
            freshJobId).1 = freshTaskId
        ∧ kvGet (create_document_summarization_task st document_id freshTaskId
              freshJobId).2.docJob ("doc_job:" ++ document_id) = some freshJobId
        ∧ kvTtl (create_document_summarization_task st document_id freshTaskId
              freshJobId).2.docJob ("doc_job:" ++ document_id) = some 3600
        ∧ (∃ meta : TaskMeta,
            kvGet (create_document_summarization_task st document_id freshTaskId
                freshJobId).2.tasks ("task:" ++ freshTaskId) = some meta
            ∧ meta.document_id = document_id
            ∧ meta.status = "pending"
            ∧ meta.type = "document_summarize")
        ∧ kvTtl (create_document_summarization_task st document_id freshTaskId
              freshJobId).2.tasks ("task:" ++ freshTaskId) = some 3600
        ∧ (create_document_summarization_task st document_id freshTaskId
              freshJobId).2.queue = st.queue ++ [freshJobId]
        ∧ (create_document_summarization_task st document_id freshTaskId
              freshJobId).2.jobs
            = st.jobs ++ [{ id := freshJobId, status := JobStatus.queued }]) := by
  constructor
  · intro jid job h1 h2 h3
    unfold create_document_summarization_task
    rw [h1]
    dsimp only
    rw [h2]
    dsimp only
    rw [if_pos h3]
  · intro hLock
    have hstep : create_document_summarization_task st document_id freshTaskId
        freshJobId = dispatchCreateNew st document_id freshTaskId freshJobId := by
      unfold create_document_summarization_task
      cases hg : kvGet st.docJob ("doc_job:" ++ document_id) with
      | none => rfl
      | some jid =>
        dsimp only
        cases hf : fetchJob st.jobs jid with
        | none => rfl
        | some job =>
          dsimp only
          rw [if_neg]
          rintro (h | h)
          · exact (hLock jid hg job hf).1 h
          · exact (hLock jid hg job hf).2 h
    rw [hstep]
    refine ⟨rfl, kvGet_setex_self _ _ _ _, kvTtl_setex_self _ _ _ _,
      ⟨_, kvGet_setex_self _ _ _ _, rfl, rfl, rfl⟩,
      kvTtl_setex_self _ _ _ _, rfl, rfl⟩

/-- Empty dispatcher state used by concrete dispatch scenarios. -/
def emptyDispatchState : DispatchState :=
  { tasks := [], jobKeys := [], docJob := [], jobs := [], queue := [] }

/-- Claim C4 counterexample: dispatching for `doc1` from an empty state
returns the fresh task id `task-1`, but the Dispatch Lock is set to the
enqueued job's id `job-1` — the returned id and the id stored in the
lock are different, so they cannot both be "the new Run's id". -/
theorem dispatch_lock_vs_return_counterexample :
    (create_document_summarization_task emptyDispatchState "doc1" "task-1"
        "job-1").1 = "task-1"
    ∧ kvGet (create_document_summarization_task emptyDispatchState "doc1"
        "task-1" "job-1").2.docJob "doc_job:doc1" = some "job-1"
    ∧ "task-1" ≠ "job-1" := by
  refine ⟨rfl, ?_, by decide⟩
  rfl

/-- Dispatcher state with an active (started) run for `doc1`. -/
def busyDispatchState : DispatchState :=
  { tasks := [("task:t0",
      { id := "t0", type := "document_summarize", document_id := "doc1",
        status := "pending", progress := 0 }, 3600)]
    jobKeys := [("job:t0", "j0", 3600)]
    docJob := [("doc_job:doc1", "j0", 3600)]
    jobs := [{ id := "j0", status := JobStatus.started }]
    queue := ["j0"] }

/-- Witness for the amended C4: with a lock pointing at the started job
`j0`, dispatch returns `j0` and changes nothing. -/
theorem dispatch_idempotency_amended_witness :
    create_document_summarization_task busyDispatchState "doc1" "t1" "j1"
      = ("j0", busyDispatchState) := by
  exact (dispatch_idempotency_amended busyDispatchState "doc1" "t1" "j1").1
    "j0" { id := "j0", status := JobStatus.started } rfl rfl (Or.inr rfl)

/-! SSRF guard: `validate_url_security` and `PRIVATE_IP_RANGES` from
`src/app/extraction.py`.  `urllib.parse.urlparse` and
`ipaddress.ip_address` are Python standard-library collaborators; they
are modelled below for the URL and address shapes this validator
receives: `scheme://host[:port]/path` URLs, dotted-quad IPv4 literals,
and hex-group IPv6 literals (with at most one `::`, no embedded IPv4,
no zone id). -/

/-- The two urlparse fields the validator reads. -/
structure ParsedUrl where
  scheme : String
  hostname : Option String
deriving DecidableEq, Repr

/-- Split a character list at every occurrence of `sep`. -/
def splitOnChar (sep : Char) : List Char → List (List Char)
  | [] => [[]]
  | c :: rest =>
    if c = sep then [] :: splitOnChar sep rest
    else
      match splitOnChar sep rest with
      | g :: gs => (c :: g) :: gs
      | [] => [[c]]

/-- Split a character list at every occurrence of `::` (leftmost first,
non-overlapping), as Python `str.split("::")` does for the inputs the
IPv6 parser sees. -/
def splitOnColonColon : List Char → List (List Char)
  | [] => [[]]
  | ':' :: ':' :: rest => [] :: splitOnColonColon rest
  | c :: rest =>
    match splitOnColonColon rest with
    | g :: gs => (c :: g) :: gs
    | [] => [[c]]

/-- Split at the first `://`, when present: scheme part and remainder. -/
def splitSchemeSep : List Char → Option (List Char × List Char)
  | [] => none
  | ':' :: '/' :: '/' :: rest => some ([], rest)
  | c :: rest => (splitSchemeSep rest).map (fun p => (c :: p.1, p.2))

/-- Model of `urllib.parse.urlparse` restricted to
`scheme://netloc/path` inputs: the scheme is lowercased; the hostname is
the netloc up to a port separator, brackets stripped for IPv6 literals,
lowercased, and absent when the netloc is empty. -/
def urlparseModel (url : String) : ParsedUrl :=
  match splitSchemeSep url.data with
  | some (schemeChars, rest) =>
    let netloc := rest.takeWhile (fun c => c ≠ '/')
    let host :=
      if netloc.head? = some '[' then
        (netloc.drop 1).takeWhile (fun c => c ≠ ']')
      else netloc.takeWhile (fun c => c ≠ ':')
    { scheme := String.mk (schemeChars.map Char.toLower)
      hostname :=
        if host.isEmpty then none
        else some (String.mk (host.map Char.toLower)) }
  | none => { scheme := "", hostname := none }

/-- Hexadecimal digit test for the IPv6 literal model. -/
def pyIsHexDigit (c : Char) : Bool :=
  c.isDigit || ('a' ≤ c && c ≤ 'f') || ('A' ≤ c && c ≤ 'F')

/-- Value of a hexadecimal digit. -/
def hexVal (c : Char) : Nat :=
  if c.isDigit then c.toNat - '0'.toNat
  else if 'a' ≤ c then c.toNat - 'a'.toNat + 10
  else c.toNat - 'A'.toNat + 10

/-- One dotted-quad octet under Python `ipaddress` rules: 1–3 decimal
digits, no leading zero, value at most 255. -/
def parseIPv4Octet (cs : List Char) : Option Nat :=
  if cs.isEmpty then none
  else if ¬ cs.all Char.isDigit then none
  else if 3 < cs.length then none
  else if 1 < cs.length ∧ cs.head? = some '0' then none
  else
    let v := cs.foldl (fun acc c => acc * 10 + (c.toNat - '0'.toNat)) 0
    if v ≤ 255 then some v else none

/-- Model of `ipaddress.IPv4Address` parsing: exactly four octets. -/
def parseIPv4 (s : String) : Option Nat :=
  match (splitOnChar '.' s.data).mapM parseIPv4Octet with
  | some [a, b, c, d] => some (((a * 256 + b) * 256 + c) * 256 + d)
  | _ => none

/-- One IPv6 hex group: 1–4 hex digits. -/
def parseHexGroup (cs : List Char) : Option Nat :=
  if cs.isEmpty then none
  else if 4 < cs.length then none
  else if ¬ cs.all pyIsHexDigit then none
  else some (cs.foldl (fun acc c => acc * 16 + hexVal c) 0)

/-- 128-bit value of a full list of eight groups. -/
def groupsVal (gs : List Nat) : Nat :=
  gs.foldl (fun acc g => acc * 65536 + g) 0

/-- Model of `ipaddress.IPv6Address` parsing for hex-group literals:
eight groups, or fewer with a single `::` filling in zero groups. -/
def parseIPv6 (s : String) : Option Nat :=
  match splitOnColonColon s.data with
  | [whole] =>
    match (splitOnChar ':' whole).mapM parseHexGroup with
    | some gs => if gs.length = 8 then some (groupsVal gs) else none
    | none => none
  | [pre, post] =>
    let preGroups :=
      if pre.isEmpty then some []
      else (splitOnChar ':' pre).mapM parseHexGroup
    let postGroups :=
      if post.isEmpty then some []
      else (splitOnChar ':' post).mapM parseHexGroup
    match preGroups, postGroups with
    | some g1, some g2 =>
      if g1.length + g2.length ≤ 7 then
        some (groupsVal
          (g1 ++ List.replicate (8 - g1.length - g2.length) 0 ++ g2))
      else none
    | _, _ => none
  | _ => none

/-- An address literal, as classified by `ipaddress.ip_address`. -/
inductive IpAddr where
  | v4 (val : Nat)
  | v6 (val : Nat)
deriving DecidableEq, Repr

/-- Model of `ipaddress.ip_address`: try IPv4, then IPv6, else fail
(`ValueError` in Python, `none` here). -/
def ip_address (s : String) : Option IpAddr :=
  match parseIPv4 s with
  | some v => some (.v4 v)
  | none =>
    match parseIPv6 s with
    | some v => some (.v6 v)
    | none => none

/-- A CIDR network: version flag, network address, prefix length. -/
structure IpNetwork where
  isV6 : Bool
  addr : Nat
  prefixLen : Nat
deriving DecidableEq, Repr

/-- `ip in network`: versions agree and the network-prefix bits agree. -/
def ipInNetwork (ip : IpAddr) (net : IpNetwork) : Bool :=
  match ip with
  | .v4 v => !net.isV6 && (v / 2 ^ (32 - net.prefixLen)
      == net.addr / 2 ^ (32 - net.prefixLen))
  | .v6 v => net.isV6 && (v / 2 ^ (128 - net.prefixLen)
      == net.addr / 2 ^ (128 - net.prefixLen))

/-- Numeric value of a dotted quad. -/
def v4Addr (a b c d : Nat) : Nat := ((a * 256 + b) * 256 + c) * 256 + d

/-- `PRIVATE_IP_RANGES` from `src/app/extraction.py`, in source order:
IPv4 loopback, RFC 1918 A/B/C, link-local, multicast, reserved; IPv6
loopback, unique local, link-local. -/
def PRIVATE_IP_RANGES : List IpNetwork :=
  [{ isV6 := false, addr := v4Addr 127 0 0 0, prefixLen := 8 },
   { isV6 := false, addr := v4Addr 10 0 0 0, prefixLen := 8 },
   { isV6 := false, addr := v4Addr 172 16 0 0, prefixLen := 12 },
   { isV6 := false, addr := v4Addr 192 168 0 0, prefixLen := 16 },
   { isV6 := false, addr := v4Addr 169 254 0 0, prefixLen := 16 },
   { isV6 := false, addr := v4Addr 224 0 0 0, prefixLen := 4 },
   { isV6 := false, addr := v4Addr 240 0 0 0, prefixLen := 4 },
   { isV6 := true, addr := 1, prefixLen := 128 },
   { isV6 := true, addr := 0xfc00 * 2 ^ 112, prefixLen := 7 },
   { isV6 := true, addr := 0xfe80 * 2 ^ 112, prefixLen := 10 }]

/-- Reasons `validate_url_security` raises `ProcessingError`. -/
inductive SecurityRejection where
  | fileScheme
  | nonHttpScheme
  | privateIp
deriving DecidableEq, Repr

/-- Embedding of `validate_url_security` over the parsed URL: reject the
`file` scheme, reject any scheme other than http/https, and reject a
hostname that parses as an IP literal lying in one of
`PRIVATE_IP_RANGES`; everything else passes. -/
def validate_url_security_parsed (p : ParsedUrl) :
    Except SecurityRejection Unit :=
  if p.scheme = "file" then .error .fileScheme
  else if p.scheme ∉ (["http", "https"] : List String) then
    .error .nonHttpScheme
  else
    match p.hostname with
    | some h =>
      match ip_address h with
      | some ip =>
        if PRIVATE_IP_RANGES.any (fun net => ipInNetwork ip net) then
          .error .privateIp
        else .ok ()
      | none => .ok ()
    | none => .ok ()

/-- `validate_url_security(url)` as called by the fetcher. -/
def validate_url_security (url : String) : Except SecurityRejection Unit :=
  validate_url_security_parsed (urlparseModel url)

/-- Modelled from the spec: the spec's §4.4 rejection categories include
the multicast range for IPv6; the IPv6 multicast range is ff00::/8.
This network does not appear in the source's `PRIVATE_IP_RANGES`. -/
def specIPv6MulticastNetwork : IpNetwork :=
  { isV6 := true, addr := 0xff00 * 2 ^ 112, prefixLen := 8 }

/-- Claim C9 counterexample: `ff02::1` is a literal IPv6 address in the
multicast range, so the claim requires `http://[ff02::1]/` to be
rejected; the guard accepts it because `PRIVATE_IP_RANGES` contains no
IPv6 multicast entry. -/
theorem ssrf_guard_counterexample :
    ip_address "ff02::1" = some (.v6 (0xff02 * 2 ^ 112 + 1))
    ∧ ipInNetwork (.v6 (0xff02 * 2 ^ 112 + 1)) specIPv6MulticastNetwork = true
    ∧ urlparseModel "http://[ff02::1]/"
        = { scheme := "http", hostname := some "ff02::1" }
    ∧ validate_url_security "http://[ff02::1]/" = .ok () := by
  refine ⟨?_, ?_, ?_, ?_⟩ <;> rfl

/-- Claim C9, amended: the guard rejects, before any network call, every
URL whose scheme is not http or https (including `file:`), and every
http/https URL whose hostname parses as an IP literal lying in one of
the source's `PRIVATE_IP_RANGES` (IPv4 loopback, private, link-local,
multicast, reserved; IPv6 loopback, unique-local, link-local — IPv6
multicast and other reserved ranges are not in the list); it accepts
every http/https URL whose hostname is not an IP literal.  Concretely it
rejects `http://127.0.0.1/`, `file:///etc/passwd` and `http://[::1]/`,
and accepts `https://example.com/`. -/
theorem ssrf_guard_amended :
    (∀ p : ParsedUrl, ¬(p.scheme = "http" ∨ p.scheme = "https") →
        ∃ r, validate_url_security_parsed p = .error r)
    ∧ (∀ (p : ParsedUrl) (h : String) (ip : IpAddr),
        p.hostname = some h →
        (p.scheme = "http" ∨ p.scheme = "https") →
        ip_address h = some ip →
        PRIVATE_IP_RANGES.any (fun net => ipInNetwork ip net) = true →
        validate_url_security_parsed p = .error .privateIp)
    ∧ (∀ (p : ParsedUrl) (h : String),
        p.hostname = some h →
        (p.scheme = "http" ∨ p.scheme = "https") →
        ip_address h = none →
        validate_url_security_parsed p = .ok ())
    ∧ validate_url_security "http://127.0.0.1/" = .error .privateIp
    ∧ validate_url_security "file:///etc/passwd" = .error .fileScheme
    ∧ validate_url_security "http://[::1]/" = .error .privateIp
    ∧ validate_url_security "https://example.com/" = .ok () := by
  have hmem : ∀ p : ParsedUrl, (p.scheme = "http" ∨ p.scheme = "https") →
      ¬ p.scheme ∉ (["http", "https"] : List String) := by
    intro p hs
    simp only [List.mem_cons, List.not_mem_nil, or_false, not_not]
    exact hs
  have hnotfile : ∀ p : ParsedUrl, (p.scheme = "http" ∨ p.scheme = "https") →
      ¬ p.scheme = "file" := by
    rintro p (hs | hs) <;> rw [hs] <;> decide
  refine ⟨?_, ?_, ?_, rfl, rfl, rfl, rfl⟩
  · intro p hs
    unfold validate_url_security_parsed
    by_cases hf : p.scheme = "file"
    · rw [if_pos hf]
      exact ⟨_, rfl⟩
    · rw [if_neg hf, if_pos ?_]
      · exact ⟨_, rfl⟩
      · simp only [List.mem_cons, List.not_mem_nil, or_false]
        exact hs
  · intro p h ip hh hs hip hin
    unfold validate_url_security_parsed
    rw [if_neg (hnotfile p hs), if_neg (hmem p hs), hh]
    dsimp only
    rw [hip]
    dsimp only
    rw [if_pos hin]
  · intro p h hh hs hip
    unfold validate_url_security_parsed
    rw [if_neg (hnotfile p hs), if_neg (hmem p hs), hh]
    dsimp only
    rw [hip]

/-- Witness for the amended C9: rejection of the RFC 1918 address
10.0.0.5 behind an https scheme, via the second amended clause at a
concrete parsed URL. -/
theorem ssrf_guard_amended_witness :
    validate_url_security_parsed
        { scheme := "https", hostname := some "10.0.0.5" }
      = .error SecurityRejection.privateIp := by
  exact ssrf_guard_amended.2.1
    { scheme := "https", hostname := some "10.0.0.5" } "10.0.0.5"
    (.v4 (v4Addr 10 0 0 5)) rfl (Or.inr rfl) rfl rfl

end Summarizer
